import Mathlib

/-!
# glutton: the HTTP decoy handler (`protocols/http.go`)

A shallow embedding of `HandleHTTP` and a verification of its contract.

`HandleHTTP` is sequential code over three collaborators: the connection (`net.Conn`), the
logger and the honeypot's flow table.  The embedding runs the handler against a value that
fixes what each collaborator answers, and returns the ordered list of effects the handler
performed (reads, writes, log events, the close) together with the error value handed to the
caller and the way the invocation ends: by a return, by the panic of the buffer allocation of
line 80, or by the end of the process when that allocation exhausts the heap.  Go strings are
byte sequences and are embedded as such.
-/

namespace Glutton

/-! ## Go values -/

/-- A Go `byte`. -/
abbrev Byte := Fin 256

/-- A Go `string` (and a `[]byte`): a sequence of bytes. -/
abbrev GoString := List Byte

/-- UTF-8 encoding of one code point, the encoding Go gives a source-text string literal. -/
def utf8 (n : Nat) : List Byte :=
  if n < 0x80 then [Fin.ofNat n]
  else if n < 0x800 then [Fin.ofNat (0xC0 + n / 0x40), Fin.ofNat (0x80 + n % 0x40)]
  else if n < 0x10000 then
    [Fin.ofNat (0xE0 + n / 0x1000), Fin.ofNat (0x80 + n / 0x40 % 0x40), Fin.ofNat (0x80 + n % 0x40)]
  else
    [Fin.ofNat (0xF0 + n / 0x40000), Fin.ofNat (0x80 + n / 0x1000 % 0x40),
     Fin.ofNat (0x80 + n / 0x40 % 0x40), Fin.ofNat (0x80 + n % 0x40)]

/-- A Go string literal: the bytes of its text. -/
def lit (s : String) : GoString :=
  (s.toList.map fun c => utf8 c.toNat).flatten

/-- A non-nil Go `error`: its `Error()` text and, when it was built by `fmt.Errorf` with `%w`,
the error it wraps. -/
inductive GoError where
  | leaf (text : GoString)
  | wrap (text : GoString) (inner : GoError)
deriving DecidableEq

/-- The method `Error()` of an error. -/
def GoError.Error : GoError → GoString
  | .leaf text => text
  | .wrap text _ => text

/-- The error `fmt.Errorf(format ++ "%w", err)` builds: the text is the format's text followed
by the text of `err`, and `errors.Unwrap` gives `err` back. -/
def Errorf (format : GoString) (err : GoError) : GoError :=
  .wrap (format ++ err.Error) err

/-- The relation `errors.Is(e, target)` for comparable errors: `target` is `e` or is reached
from `e` by unwrapping. -/
def GoError.Is : GoError → GoError → Bool
  | .leaf text, target => decide (GoError.leaf text = target)
  | .wrap text inner, target => decide (GoError.wrap text inner = target) || inner.Is target

/-- The value `io.ErrUnexpectedEOF`. -/
def ErrUnexpectedEOF : GoError := .leaf (lit "unexpected EOF")

/-! ## Library functions the handler calls -/

/-- The function `strings.HasPrefix`. -/
def HasPrefix : GoString → GoString → Bool
  | _, [] => true
  | [], _ :: _ => false
  | a :: s, b :: p => a == b && HasPrefix s p

/-- The function `strings.Contains`: `substr` occurs in `s` at some byte offset. -/
def Contains : GoString → GoString → Bool
  | [], substr => HasPrefix [] substr
  | c :: s, substr => HasPrefix (c :: s) substr || Contains s substr

/-- The table `hextable` of `encoding/hex`. -/
def hextable : GoString := lit "0123456789abcdef"

/-- The function `hex.EncodeToString`: per source byte `v`, `hextable[v>>4]` then
`hextable[v&0x0f]`. -/
def EncodeToString : List Byte → GoString
  | [] => []
  | v :: src => hextable.getD (v.val / 16) 0 :: hextable.getD (v.val % 16) 0 :: EncodeToString src

/-- The function `strconv.Itoa`: decimal digits, with a leading `-` for a negative number. -/
def Itoa : Int → GoString
  | Int.ofNat n => lit (Nat.repr n)
  | Int.negSucc n => lit "-" ++ lit (Nat.repr (n + 1))

/-! ## Data model -/

/-- The two results of `*url.URL` that the handler logs. -/
structure URL where
  /-- Result of `u.EscapedPath()`. -/
  EscapedPath : GoString
  /-- Result of `u.Query().Encode()`. -/
  QueryEncode : GoString
deriving DecidableEq

/-- The body reader `req.Body` of a request with a declared length: what is left of the
stream behind the request head. -/
structure Body where
  /-- The bytes the stream still delivers. -/
  pending : List Byte
  /-- What a read behind those bytes yields: `none` is `io.EOF`, `some e` a read error. -/
  failure : Option GoError
deriving DecidableEq

/-- The fields of `*http.Request` that `HandleHTTP` uses. -/
structure Request where
  Method : GoString
  URL : URL
  /-- An `int64`; `-1` when the length is unknown. -/
  ContentLength : Int
  /-- The unmodified request-target of the request line. -/
  RequestURI : GoString
  Body : Body
deriving DecidableEq

/-- The key `freki.NewConnKeyByString` computes, a `[2]uint64`. -/
abbrev ConnKey := Nat × Nat

/-- Modelled from the spec: the flow record of the session tracker (the type is declared
outside `protocols/http.go`); the spec gives it the originally targeted port and has the
lookup always return a usable record. -/
structure Metadata where
  TargetPort : Nat
deriving DecidableEq

/-- Modelled from the spec: the interface `Honeypot` (declared outside `protocols/http.go`),
reduced to the one method the handler calls, the lookup of a flow record by connection key. -/
structure Honeypot where
  ConnectionByFlow : ConnKey → Metadata

/-- What the connection, the network library and the Go runtime answer during one
invocation. -/
structure Conn where
  /-- Result of `http.ReadRequest(bufio.NewReader(conn))`. -/
  ReadRequest : Except GoError Request
  /-- Result of `net.SplitHostPort(conn.RemoteAddr().String())`: host and port, or an error. -/
  SplitHostPort : Except GoError (GoString × GoString)
  /-- Result of `freki.NewConnKeyByString(host, port)`. -/
  NewConnKeyByString : GoString → GoString → ConnKey
  /-- The error result of `conn.Write(p)`, `none` for `nil`. -/
  Write : List Byte → Option GoError
  /-- The result of `conn.Close()`, `none` for `nil`. -/
  Close : Option GoError
  /-- The constant `maxAlloc` of the runtime: the largest size an allocation may have on the
  platform (2^48 bytes on linux/amd64). -/
  maxAlloc : Nat
  /-- Whether the heap can supply a block of that many bytes when line 80 asks for it. -/
  heapFits : Nat → Bool

/-- Log levels of the interface `Logger` that the handler uses. -/
inductive Level where
  | info
  | error
deriving DecidableEq

/-- One observable effect of the handler. -/
inductive Event where
  /-- Bytes are requested from the connection (by `http.ReadRequest` or through `req.Body`). -/
  | read
  /-- The call `conn.Write(p)`. -/
  | write (p : List Byte)
  /-- The call `conn.Close()`. -/
  | close
  /-- The call `req.Body.Close()`, which may drain the body from the connection. -/
  | bodyClose
  /-- The call `h.ConnectionByFlow(ck)`. -/
  | flow (ck : ConnKey)
  /-- The call `logger.Info` or `logger.Error` with its message and `zap.String` fields. -/
  | log (lvl : Level) (msg : GoString) (fields : List (GoString × GoString))
deriving DecidableEq

/-- The call `zap.String(key, val)`. -/
def zapString (key val : GoString) : GoString × GoString := (key, val)

/-- The statement `logger.Error(fmt.Sprintf("[http    ] error: %v", err))`. -/
def logError (err : GoError) : Event :=
  .log .error (lit "[http    ] error: " ++ err.Error) []

/-- The bytes `bytes.Buffer.ReadFrom(req.Body)` collects and the error it returns, for a body
of declared length `n`.  The body reader is limited to `n` bytes: when the stream delivers
that many, the first `n` are read and the error is `nil`; when it ends earlier, net/http turns
the early `io.EOF` into `io.ErrUnexpectedEOF`, and a read error is passed on.  The buffer
grows as the bytes arrive; memory in proportion to the bytes received is taken to be there, as
for the request and the log texts. -/
def Body.ReadFrom (b : Body) (n : Int) : List Byte × Option GoError :=
  if n.toNat ≤ b.pending.length then (b.pending.take n.toNat, none)
  else (b.pending, some (b.failure.getD ErrUnexpectedEOF))

/-- How the statement `make([]byte, len, cap)` ends. -/
inductive Make where
  /-- The slice is allocated. -/
  | ok
  /-- The run-time panic `makeslice: cap out of range` (or `len out of range`): deferred calls
  run and the panic goes up to the caller. -/
  | panic
  /-- The allocator gives up with `fatal error: out of memory`: the runtime ends the process
  on the spot, and no deferred call runs. -/
  | fatal
deriving DecidableEq

/-- The runtime function `makeslice` for a byte slice: it panics when the capacity is negative
or above `maxAlloc`, or the length is negative or above the capacity; otherwise it asks the
allocator for `cap` bytes, which ends the process when the heap cannot supply them. -/
def makeslice (maxAlloc : Nat) (heapFits : Nat → Bool) (len cap : Int) : Make :=
  if (cap < 0 ∨ maxAlloc < cap.toNat) ∨ len < 0 ∨ cap < len then .panic
  else if heapFits cap.toNat then .ok
  else .fatal

/-- How the body of `HandleHTTP`, and an invocation, ends. -/
inductive Ending where
  /-- By a `return` statement. -/
  | returns
  /-- By a run-time panic, which the caller receives after the deferred calls have run. -/
  | panics
  /-- By the end of the process, with no deferred call run. -/
  | aborts
deriving DecidableEq

/-! ## The handler -/

/-- The generic response, `[]byte("HTTP/1.1 200 OK\r\n\r\n")`. -/
def okResponse : List Byte := lit "HTTP/1.1 200 OK\r\n\r\n"

/-- The wallet-probe response,
`[]byte("HTTP/1.1 200 OK\r\nContent-Length:20\r\n\r\n[[\"\"]]\r\n\r\n")`. -/
def walletResponse : List Byte :=
  lit "HTTP/1.1 200 OK\r\nContent-Length:20\r\n\r\n[[\"\"]]\r\n\r\n"

/-- The state in which the body of `HandleHTTP` is left. -/
structure Exit where
  /-- The effects so far, oldest first. -/
  trace : List Event
  /-- The operand of the `return` statement, which it stores in the named result `err`; when
  the body is not left by a `return`, the value `nil` that `err` holds at line 80. -/
  returned : Option GoError
  /-- Whether `defer req.Body.Close()` was executed. -/
  bodyDeferred : Bool
  /-- How the body is left. -/
  ending : Ending
deriving DecidableEq

/-- Lines 92-104 of `HandleHTTP`: response selection and the write. -/
def HandleHTTP.respond (conn : Conn) (req : Request) (t : List Event) (bodyDeferred : Bool) :
    Exit :=
  if Contains req.RequestURI (lit "wallet") then
    let t := t ++ [.log .info (lit "HTTP wallet request") [zapString (lit "handler") (lit "http")]]
    let err := conn.Write walletResponse
    ⟨t ++ [.write walletResponse], err, bodyDeferred, .returns⟩
  else
    let err := conn.Write okResponse
    let t := t ++ [.write okResponse]
    match err with
    | some err =>
      ⟨t, some (Errorf (lit "failed to send HTTP response: ") err), bodyDeferred, .returns⟩
    | none => ⟨t, none, bodyDeferred, .returns⟩

/-- Lines 54-104 of `HandleHTTP`: the function body up to the point where it is left, by a
`return` statement or at line 80 by the allocation of the buffer, whose capacity is the
declared length of the request.  Line 79 has deferred `req.Body.Close()` by then. -/
def HandleHTTP.body (conn : Conn) (h : Honeypot) : Exit :=
  let t := [Event.read]
  match conn.ReadRequest with
  | .error err => ⟨t ++ [logError err], some err, false, .returns⟩
  | .ok req =>
    match conn.SplitHostPort with
    | .error err => ⟨t ++ [logError err], some err, false, .returns⟩
    | .ok (host, port) =>
      let ck := conn.NewConnKeyByString host port
      let md := h.ConnectionByFlow ck
      let t := t ++ [.flow ck,
        .log .info
          (lit "HTTP " ++ req.Method ++ lit " request handled: " ++ req.URL.EscapedPath)
          [zapString (lit "handler") (lit "http"),
           zapString (lit "dest_port") (Itoa (Int.ofNat md.TargetPort)),
           zapString (lit "src_ip") host,
           zapString (lit "src_port") port,
           zapString (lit "path") req.URL.EscapedPath,
           zapString (lit "method") req.Method,
           zapString (lit "query") req.URL.QueryEncode]]
      if req.ContentLength > 0 then
        match makeslice conn.maxAlloc conn.heapFits 0 req.ContentLength with
        | .panic => ⟨t, none, true, .panics⟩
        | .fatal => ⟨t, none, true, .aborts⟩
        | .ok =>
          let (body, err) := req.Body.ReadFrom req.ContentLength
          let t := t ++ [.read]
          match err with
          | some err => ⟨t ++ [logError err], some err, true, .returns⟩
          | none =>
            let t := t ++ [.log .info (lit "HTTP body payload")
              [zapString (lit "handler") (lit "http"),
               zapString (lit "payload_hex") (EncodeToString body)]]
            HandleHTTP.respond conn req t true
      else
        HandleHTTP.respond conn req t false

/-- What one invocation of `HandleHTTP` did and gave back. -/
structure Result where
  /-- The effects of the invocation, oldest first. -/
  trace : List Event
  /-- The operand of the `return` statement the body left through (see `Exit.returned`). -/
  returned : Option GoError
  /-- The named result `err` when the invocation ends: the value the caller receives when the
  function returns. -/
  err : Option GoError
  /-- How the invocation ends. -/
  ending : Ending
deriving DecidableEq

/-- The function `HandleHTTP`: the body, then, unless the runtime has ended the process, the
deferred calls, last registered first: `req.Body.Close()` when it was deferred, then the
closure of lines 47-52, which assigns `conn.Close()` to the named result `err` and logs it
when it is not `nil`.  After a panic the deferred calls run the same and the panic goes on to
the caller.  The parameter `ctx` is not used by the function. -/
def HandleHTTP (conn : Conn) (h : Honeypot) : Result :=
  let x := HandleHTTP.body conn h
  match x.ending with
  | .aborts => ⟨x.trace, x.returned, x.returned, .aborts⟩
  | ending =>
    let t := if x.bodyDeferred then x.trace ++ [.bodyClose] else x.trace
    let err := conn.Close
    let t := t ++ [.close]
    match err with
    | some err => ⟨t ++ [logError err], x.returned, some err, ending⟩
    | none => ⟨t, x.returned, none, ending⟩

/-! ## Observations on a trace -/

/-- The payloads of the calls `conn.Write`, in order. -/
def writes : List Event → List (List Byte)
  | [] => []
  | .write p :: t => p :: writes t
  | _ :: t => writes t

/-- The log events of one level, in order: message and fields. -/
def logged (lvl : Level) : List Event → List (GoString × List (GoString × GoString))
  | [] => []
  | .log l msg fields :: t => if l = lvl then (msg, fields) :: logged lvl t else logged lvl t
  | _ :: t => logged lvl t

/-- Whether an event is an operation on the connection's byte stream: a read, a write, the
close, or the close of the body reader (which may read). -/
def Event.onConn : Event → Bool
  | .read | .write _ | .close | .bodyClose => true
  | .flow _ | .log _ _ _ => false

/-- The events the deferred closure adds after `conn.Close()`. -/
def closeLog (conn : Conn) : List Event :=
  match conn.Close with
  | some err => [logError err]
  | none => []

/-- The event of lines 68-77, the request-handled event. -/
def primaryEvent (conn : Conn) (h : Honeypot) (req : Request) (host port : GoString) : Event :=
  .log .info (lit "HTTP " ++ req.Method ++ lit " request handled: " ++ req.URL.EscapedPath)
    [(lit "handler", lit "http"),
     (lit "dest_port",
       Itoa (Int.ofNat (h.ConnectionByFlow (conn.NewConnKeyByString host port)).TargetPort)),
     (lit "src_ip", host),
     (lit "src_port", port),
     (lit "path", req.URL.EscapedPath),
     (lit "method", req.Method),
     (lit "query", req.URL.QueryEncode)]

/-- The event of lines 86-90, the body-payload event. -/
def payloadEvent (body : List Byte) : Event :=
  .log .info (lit "HTTP body payload")
    [(lit "handler", lit "http"), (lit "payload_hex", EncodeToString body)]

/-- The event of lines 93-96, the wallet event. -/
def walletEvent : Event :=
  .log .info (lit "HTTP wallet request") [(lit "handler", lit "http")]

/-- The events and the write of lines 92-104, by the test on the request-target. -/
def selection (req : Request) : List Event :=
  if Contains req.RequestURI (lit "wallet") then [walletEvent, .write walletResponse]
  else [.write okResponse]

/-- The part of the trace between the request-handled event and the response selection: the
body read and its payload event, for a request that declares a positive length. -/
def capture (req : Request) : List Event :=
  if req.ContentLength > 0 then
    [.read, payloadEvent (req.Body.ReadFrom req.ContentLength).1]
  else []

/-! ## Sample invocations -/

/-- A flow table that answers every key with a record of target port 8080. -/
def sampleHoneypot : Honeypot := ⟨fun _ => ⟨8080⟩⟩

/-- A request without query string: method, request-target, declared length, and the bytes
the stream delivers behind the head before it ends. -/
def sampleRequest (method target : String) (n : Int) (stream : List Byte) : Request :=
  ⟨lit method, ⟨lit target, []⟩, n, lit target, ⟨stream, none⟩⟩

/-- A TCP connection from 10.0.0.1:4242, with the result of `http.ReadRequest` on it, the
error of its writes and the error of its close, in a process on linux/amd64 (`maxAlloc` is
2^48) whose heap supplies blocks of up to 16 GiB. -/
def tcpConn (r : Except GoError Request) (w c : Option GoError) : Conn :=
  ⟨r, .ok (lit "10.0.0.1", lit "4242"), fun _ _ => (0, 0), fun _ => w, c,
    281474976710656, fun n => decide (n ≤ 17179869184)⟩

/-- An in-memory connection as `net.Pipe` makes them: its remote address prints as `pipe`,
which `net.SplitHostPort` rejects.  Writes and the close succeed; the runtime is that of
`tcpConn`. -/
def pipeConn (r : Except GoError Request) : Conn :=
  ⟨r, .error (.leaf (lit "address pipe: missing port in address")), fun _ _ => (0, 0),
    fun _ => none, none, 281474976710656, fun n => decide (n ≤ 17179869184)⟩

/-- The error of `http.ReadRequest` on the stream `NOT A REQUEST\r\n\r\n`. -/
def errMalformed : GoError := .leaf (lit "malformed HTTP version \"REQUEST\"")

/-- A write error. -/
def errBrokenPipe : GoError := .leaf (lit "write: broken pipe")

/-- A close error. -/
def errClosed : GoError := .leaf (lit "use of closed network connection")

/-- The field lists of the info events that carry the message `msg`, in order. -/
def infoNamed (msg : GoString) : List Event → List (List (GoString × GoString))
  | [] => []
  | .log .info m fields :: t => if m = msg then fields :: infoNamed msg t else infoNamed msg t
  | _ :: t => infoNamed msg t

/-! ## The hexadecimal encoding, as the specification words it -/

/-- The lowercase hexadecimal digit of a value below sixteen: `0` to `9`, then `a` to `f`. -/
def hexDigit (d : Nat) : Byte :=
  if d < 10 then Fin.ofNat (48 + d) else Fin.ofNat (97 + (d - 10))

/-- The lowercase hexadecimal text of a byte sequence: per byte, in order, the digit of its
high half and the digit of its low half. -/
def lowerHex (b : List Byte) : GoString :=
  (b.map fun v => [hexDigit (v.val / 16), hexDigit (v.val % 16)]).flatten

/-! ## Framing of a response, as an HTTP client reads it -/

/-- What follows the first occurrence of `pat` in `s`, if there is one. -/
def afterFirst (pat : GoString) : GoString → Option GoString
  | [] => if HasPrefix [] pat then some [] else none
  | c :: s => if HasPrefix (c :: s) pat then some ((c :: s).drop pat.length) else afterFirst pat s

/-- The body of a message: the bytes that follow the first blank line (CRLF CRLF). -/
def messageBody (msg : List Byte) : Option (List Byte) :=
  afterFirst (lit "\r\n\r\n") msg

/-- The value of a run of decimal digits. -/
def decimalValue (digits : List Byte) : Nat :=
  digits.foldl (fun acc d => 10 * acc + (d.val - 48)) 0

/-- The number the header `Content-Length` of a message declares: the decimal digits that
follow the header name, spaces skipped. -/
def declaredLength (msg : List Byte) : Option Nat :=
  (afterFirst (lit "Content-Length:") msg).map fun rest =>
    decimalValue ((rest.dropWhile fun c => c.val = 32).takeWhile fun c => 48 ≤ c.val ∧ c.val ≤ 57)

/-! ## Shape of an invocation -/

theorem writes_append (s t : List Event) : writes (s ++ t) = writes s ++ writes t := by
  induction s with
  | nil => rfl
  | cons e s ih => cases e <;> simp [writes, ih]

theorem logged_append (lvl : Level) (s t : List Event) :
    logged lvl (s ++ t) = logged lvl s ++ logged lvl t := by
  induction s with
  | nil => rfl
  | cons e s ih =>
    cases e <;> simp [logged, ih]
    split <;> simp

theorem writes_closeLog (conn : Conn) : writes (closeLog conn) = [] := by
  unfold closeLog; split <;> rfl

theorem logged_info_closeLog (conn : Conn) : logged .info (closeLog conn) = [] := by
  unfold closeLog; split <;> simp [logged, logError]

/-- An invocation ends as its body does. -/
theorem ending_eq (conn : Conn) (h : Honeypot) :
    (HandleHTTP conn h).ending = (HandleHTTP.body conn h).ending := by
  unfold HandleHTTP
  cases he : (HandleHTTP.body conn h).ending <;> cases hc : conn.Close <;> simp [he]

/-- The deferred calls, spelled out, for an invocation the process survives: the trace of the
body, the deferred `req.Body.Close()`, the close, the log of a close error; the named result
ends as the result of `conn.Close()`. -/
theorem HandleHTTP_eq (conn : Conn) (h : Honeypot)
    (hne : (HandleHTTP.body conn h).ending ≠ .aborts) :
    HandleHTTP conn h =
      ⟨(HandleHTTP.body conn h).trace
          ++ (if (HandleHTTP.body conn h).bodyDeferred then [Event.bodyClose] else [])
          ++ [Event.close] ++ closeLog conn,
        (HandleHTTP.body conn h).returned, conn.Close, (HandleHTTP.body conn h).ending⟩ := by
  unfold HandleHTTP closeLog
  cases he : (HandleHTTP.body conn h).ending <;> cases hc : conn.Close <;>
    cases hd : (HandleHTTP.body conn h).bodyDeferred <;> simp_all

/-- An invocation that the runtime ends stops where the body stopped. -/
theorem HandleHTTP_aborted (conn : Conn) (h : Honeypot)
    (ha : (HandleHTTP.body conn h).ending = .aborts) :
    HandleHTTP conn h =
      ⟨(HandleHTTP.body conn h).trace, (HandleHTTP.body conn h).returned,
        (HandleHTTP.body conn h).returned, .aborts⟩ := by
  unfold HandleHTTP
  simp [ha]

/-- The body on a parse failure (lines 54-58). -/
theorem body_parse_error (conn : Conn) (h : Honeypot) (e : GoError)
    (hp : conn.ReadRequest = .error e) :
    HandleHTTP.body conn h = ⟨[.read, logError e], some e, false, .returns⟩ := by
  simp [HandleHTTP.body, hp]

/-- The body when the remote address does not split (lines 60-64). -/
theorem body_split_error (conn : Conn) (h : Honeypot) (req : Request) (e : GoError)
    (hp : conn.ReadRequest = .ok req) (hs : conn.SplitHostPort = .error e) :
    HandleHTTP.body conn h = ⟨[.read, logError e], some e, false, .returns⟩ := by
  simp [HandleHTTP.body, hp, hs]

theorem respond_trace (conn : Conn) (req : Request) (t : List Event) (d : Bool) :
    (HandleHTTP.respond conn req t d).trace = t ++ selection req ∧
      (HandleHTTP.respond conn req t d).bodyDeferred = d ∧
      (HandleHTTP.respond conn req t d).ending = .returns := by
  unfold HandleHTTP.respond selection
  by_cases hw : Contains req.RequestURI (lit "wallet") = true
  · simp [hw, walletEvent, zapString]
  · simp only [hw, if_false]
    cases conn.Write okResponse <;> simp

/-- The body when the request parses, the address splits and the body read, if there is one,
succeeds: the buffer is allocated and the read returns no error (lines 54-104). -/
theorem body_handled (conn : Conn) (h : Honeypot) (req : Request) (host port : GoString)
    (hp : conn.ReadRequest = .ok req) (hs : conn.SplitHostPort = .ok (host, port))
    (ha : req.ContentLength > 0 →
      makeslice conn.maxAlloc conn.heapFits 0 req.ContentLength = .ok)
    (hb : req.ContentLength > 0 → (req.Body.ReadFrom req.ContentLength).2 = none) :
    (HandleHTTP.body conn h).trace =
        [.read, .flow (conn.NewConnKeyByString host port), primaryEvent conn h req host port]
          ++ capture req ++ selection req ∧
      (HandleHTTP.body conn h).bodyDeferred = decide (req.ContentLength > 0) ∧
      (HandleHTTP.body conn h).ending = .returns := by
  unfold HandleHTTP.body capture
  simp only [hp, hs]
  by_cases hc : req.ContentLength > 0
  · have hb2 := hb hc
    simp only [hc, if_true, ha hc]
    rcases hr : req.Body.ReadFrom req.ContentLength with ⟨body, err⟩
    rw [hr] at hb2
    simp only at hb2
    subst hb2
    simp [respond_trace, primaryEvent, payloadEvent, zapString]
  · simp [hc, respond_trace, primaryEvent, zapString]

/-- The body when the buffer is allocated and the body read fails (lines 78-84). -/
theorem body_read_error (conn : Conn) (h : Honeypot) (req : Request) (host port : GoString)
    (e : GoError)
    (hp : conn.ReadRequest = .ok req) (hs : conn.SplitHostPort = .ok (host, port))
    (hc : req.ContentLength > 0)
    (ha : makeslice conn.maxAlloc conn.heapFits 0 req.ContentLength = .ok)
    (hb : (req.Body.ReadFrom req.ContentLength).2 = some e) :
    HandleHTTP.body conn h =
      ⟨[.read, .flow (conn.NewConnKeyByString host port), primaryEvent conn h req host port,
        .read, logError e], some e, true, .returns⟩ := by
  unfold HandleHTTP.body
  simp only [hp, hs, hc, if_true, ha]
  rcases hr : req.Body.ReadFrom req.ContentLength with ⟨body, err⟩
  rw [hr] at hb
  simp only at hb
  subst hb
  simp [primaryEvent, zapString]

/-- The body when the allocation of line 80 does not give a buffer: it is left there, by a
panic or by the end of the process, after the request-handled event. -/
theorem body_alloc_failure (conn : Conn) (h : Honeypot) (req : Request) (host port : GoString)
    (hp : conn.ReadRequest = .ok req) (hs : conn.SplitHostPort = .ok (host, port))
    (hc : req.ContentLength > 0) :
    (makeslice conn.maxAlloc conn.heapFits 0 req.ContentLength = .panic →
      HandleHTTP.body conn h =
        ⟨[.read, .flow (conn.NewConnKeyByString host port),
          primaryEvent conn h req host port], none, true, .panics⟩) ∧
    (makeslice conn.maxAlloc conn.heapFits 0 req.ContentLength = .fatal →
      HandleHTTP.body conn h =
        ⟨[.read, .flow (conn.NewConnKeyByString host port),
          primaryEvent conn h req host port], none, true, .aborts⟩) := by
  unfold HandleHTTP.body
  simp only [hp, hs, hc, if_true]
  constructor <;> intro hm <;> simp [hm, primaryEvent, zapString]

/-- The paths of an invocation: the parse fails, the address does not split, the allocation of
line 80 panics or ends the process, the body read fails, or the response is selected. -/
theorem invocation_cases (conn : Conn) :
    (∃ e, conn.ReadRequest = .error e) ∨
    (∃ req e, conn.ReadRequest = .ok req ∧ conn.SplitHostPort = .error e) ∨
    (∃ req host port, conn.ReadRequest = .ok req ∧ conn.SplitHostPort = .ok (host, port) ∧
      ((req.ContentLength > 0 ∧
          makeslice conn.maxAlloc conn.heapFits 0 req.ContentLength = .panic) ∨
        (req.ContentLength > 0 ∧
          makeslice conn.maxAlloc conn.heapFits 0 req.ContentLength = .fatal) ∨
        (req.ContentLength > 0 ∧
          makeslice conn.maxAlloc conn.heapFits 0 req.ContentLength = .ok ∧
          ∃ e, (req.Body.ReadFrom req.ContentLength).2 = some e) ∨
        ((req.ContentLength > 0 →
            makeslice conn.maxAlloc conn.heapFits 0 req.ContentLength = .ok) ∧
          (req.ContentLength > 0 → (req.Body.ReadFrom req.ContentLength).2 = none)))) := by
  cases hp : conn.ReadRequest with
  | error e => exact Or.inl ⟨e, rfl⟩
  | ok req =>
    right
    cases hs : conn.SplitHostPort with
    | error e => exact Or.inl ⟨req, e, rfl, rfl⟩
    | ok hostport =>
      obtain ⟨host, port⟩ := hostport
      refine Or.inr ⟨req, host, port, rfl, rfl, ?_⟩
      by_cases hc : req.ContentLength > 0
      · cases hm : makeslice conn.maxAlloc conn.heapFits 0 req.ContentLength with
        | panic => exact Or.inl ⟨hc, rfl⟩
        | fatal => exact Or.inr (Or.inl ⟨hc, rfl⟩)
        | ok =>
          cases hr : (req.Body.ReadFrom req.ContentLength).2 with
          | some e => exact Or.inr (Or.inr (Or.inl ⟨hc, rfl, e, rfl⟩))
          | none => exact Or.inr (Or.inr (Or.inr ⟨fun _ => rfl, fun _ => rfl⟩))
      · exact Or.inr (Or.inr (Or.inr ⟨fun hpos => absurd hpos hc, fun hpos => absurd hpos hc⟩))

/-- The trace of an invocation whose request parses, whose address splits and whose body
read, if there is one, succeeds. -/
theorem trace_handled (conn : Conn) (h : Honeypot) (req : Request) (host port : GoString)
    (hp : conn.ReadRequest = .ok req) (hs : conn.SplitHostPort = .ok (host, port))
    (ha : req.ContentLength > 0 →
      makeslice conn.maxAlloc conn.heapFits 0 req.ContentLength = .ok)
    (hb : req.ContentLength > 0 → (req.Body.ReadFrom req.ContentLength).2 = none) :
    (HandleHTTP conn h).trace =
      [.read, .flow (conn.NewConnKeyByString host port), primaryEvent conn h req host port]
        ++ (capture req ++ selection req
          ++ (if req.ContentLength > 0 then [Event.bodyClose] else [])
          ++ [Event.close] ++ closeLog conn) := by
  obtain ⟨h1, h2, h3⟩ := body_handled conn h req host port hp hs ha hb
  rw [HandleHTTP_eq conn h (by rw [h3]; decide)]
  simp only [h1, h2, decide_eq_true_eq, List.append_assoc]

/-- The trace of an invocation whose body read fails. -/
theorem trace_read_error (conn : Conn) (h : Honeypot) (req : Request) (host port : GoString)
    (e : GoError)
    (hp : conn.ReadRequest = .ok req) (hs : conn.SplitHostPort = .ok (host, port))
    (hc : req.ContentLength > 0)
    (ha : makeslice conn.maxAlloc conn.heapFits 0 req.ContentLength = .ok)
    (hb : (req.Body.ReadFrom req.ContentLength).2 = some e) :
    (HandleHTTP conn h).trace =
      [.read, .flow (conn.NewConnKeyByString host port), primaryEvent conn h req host port]
        ++ ([.read, logError e, .bodyClose, .close] ++ closeLog conn) := by
  have hbody := body_read_error conn h req host port e hp hs hc ha hb
  rw [HandleHTTP_eq conn h (by rw [hbody]; simp), hbody]
  simp

/-- The trace of an invocation in which the allocation of line 80 panics: the deferred calls
still close the body reader and the connection. -/
theorem trace_alloc_panic (conn : Conn) (h : Honeypot) (req : Request) (host port : GoString)
    (hp : conn.ReadRequest = .ok req) (hs : conn.SplitHostPort = .ok (host, port))
    (hc : req.ContentLength > 0)
    (hm : makeslice conn.maxAlloc conn.heapFits 0 req.ContentLength = .panic) :
    HandleHTTP conn h =
      ⟨[.read, .flow (conn.NewConnKeyByString host port), primaryEvent conn h req host port]
          ++ ([.bodyClose, .close] ++ closeLog conn),
        none, conn.Close, .panics⟩ := by
  have hbody := (body_alloc_failure conn h req host port hp hs hc).1 hm
  rw [HandleHTTP_eq conn h (by rw [hbody]; simp), hbody]
  simp

/-- The invocation in which the allocation of line 80 ends the process: nothing follows the
request-handled event, no deferred call runs. -/
theorem trace_alloc_fatal (conn : Conn) (h : Honeypot) (req : Request) (host port : GoString)
    (hp : conn.ReadRequest = .ok req) (hs : conn.SplitHostPort = .ok (host, port))
    (hc : req.ContentLength > 0)
    (hm : makeslice conn.maxAlloc conn.heapFits 0 req.ContentLength = .fatal) :
    HandleHTTP conn h =
      ⟨[.read, .flow (conn.NewConnKeyByString host port), primaryEvent conn h req host port],
        none, none, .aborts⟩ := by
  have hbody := (body_alloc_failure conn h req host port hp hs hc).2 hm
  rw [HandleHTTP_aborted conn h (by rw [hbody]), hbody]

/-- The body never closes the connection: `conn.Close()` occurs in the deferred closure only. -/
theorem close_not_in_body (conn : Conn) (h : Honeypot) :
    Event.close ∉ (HandleHTTP.body conn h).trace := by
  rcases invocation_cases conn with ⟨e, hp⟩ | ⟨req, e, hp, hs⟩ | ⟨req, host, port, hp, hs, hk⟩
  · simp [body_parse_error conn h e hp, logError]
  · simp [body_split_error conn h req e hp hs, logError]
  · rcases hk with ⟨hc, hm⟩ | ⟨hc, hm⟩ | ⟨hc, hm, e, hr⟩ | ⟨ha, hb⟩
    · simp [(body_alloc_failure conn h req host port hp hs hc).1 hm, primaryEvent]
    · simp [(body_alloc_failure conn h req host port hp hs hc).2 hm, primaryEvent]
    · simp [body_read_error conn h req host port e hp hs hc hm hr, primaryEvent, logError]
    · rw [(body_handled conn h req host port hp hs ha hb).1]
      simp only [capture, selection, primaryEvent, payloadEvent, walletEvent]
      split <;> split <;> simp

/-- The deferred closure adds no further close. -/
theorem close_not_in_closeLog (conn : Conn) : Event.close ∉ closeLog conn := by
  unfold closeLog
  split <;> simp [logError]

/-- Every invocation that the process survives holds exactly one close in its trace. -/
theorem count_close (conn : Conn) (h : Honeypot)
    (hne : (HandleHTTP conn h).ending ≠ .aborts) :
    List.count Event.close (HandleHTTP conn h).trace = 1 := by
  rw [ending_eq] at hne
  rw [HandleHTTP_eq conn h hne]
  simp only [List.append_assoc, List.count_append,
    List.count_eq_zero_of_not_mem (close_not_in_body conn h),
    List.count_eq_zero_of_not_mem (close_not_in_closeLog conn)]
  split <;> simp

/-- The invocation returns unless the allocation of line 80 is reached and gives no buffer. -/
theorem returns_of_alloc (conn : Conn) (h : Honeypot)
    (ha : ∀ req host port, conn.ReadRequest = .ok req → conn.SplitHostPort = .ok (host, port) →
      req.ContentLength > 0 → makeslice conn.maxAlloc conn.heapFits 0 req.ContentLength = .ok) :
    (HandleHTTP conn h).ending = .returns := by
  rw [ending_eq]
  rcases invocation_cases conn with ⟨e, hp⟩ | ⟨req, e, hp, hs⟩ | ⟨req, host, port, hp, hs, hk⟩
  · rw [body_parse_error conn h e hp]
  · rw [body_split_error conn h req e hp hs]
  · rcases hk with ⟨hc, hm⟩ | ⟨hc, hm⟩ | ⟨hc, hm, e, hr⟩ | ⟨ha2, hb⟩
    · rw [ha req host port hp hs hc] at hm
      exact absurd hm (by decide)
    · rw [ha req host port hp hs hc] at hm
      exact absurd hm (by decide)
    · rw [body_read_error conn h req host port e hp hs hc hm hr]
    · exact (body_handled conn h req host port hp hs ha2 hb).2.2

/-- The request-handled event differs from every event that can follow it. -/
theorem primaryEvent_not_later (conn : Conn) (h : Honeypot) (req : Request)
    (host port : GoString) :
    primaryEvent conn h req host port ∉ capture req ++ selection req
        ++ (if req.ContentLength > 0 then [Event.bodyClose] else [])
        ++ [Event.close] ++ closeLog conn ∧
      (∀ e, primaryEvent conn h req host port ∉
        [.read, logError e, .bodyClose, .close] ++ closeLog conn) ∧
      primaryEvent conn h req host port ∉ [.bodyClose, .close] ++ closeLog conn := by
  refine ⟨?_, ?_, ?_⟩
  · unfold capture selection closeLog
    split <;> split <;> split <;>
      simp [primaryEvent, payloadEvent, walletEvent, logError]
  · intro e
    unfold closeLog
    split <;> simp [primaryEvent, logError]
  · unfold closeLog
    split <;> simp [primaryEvent, logError]

theorem infoNamed_append (msg : GoString) (s t : List Event) :
    infoNamed msg (s ++ t) = infoNamed msg s ++ infoNamed msg t := by
  induction s with
  | nil => rfl
  | cons e s ih =>
    cases e with
    | log lvl m fields =>
      cases lvl
      · by_cases hm : m = msg <;> simp [infoNamed, hm, ih]
      · simp [infoNamed, ih]
    | _ => simp [infoNamed, ih]

theorem infoNamed_closeLog (msg : GoString) (conn : Conn) : infoNamed msg (closeLog conn) = [] := by
  unfold closeLog; split <;> simp [infoNamed, logError]

/-- The message of the request-handled event is longer than the messages of the two other
info events, so it is neither. -/
theorem infoNamed_primaryEvent (conn : Conn) (h : Honeypot) (req : Request)
    (host port msg : GoString) (hm : msg.length < 23) :
    infoNamed msg [primaryEvent conn h req host port] = [] := by
  have h1 : (lit "HTTP ").length = 5 := by decide
  have h2 : (lit " request handled: ").length = 18 := by decide
  have hne : lit "HTTP " ++ req.Method ++ lit " request handled: " ++ req.URL.EscapedPath ≠ msg := by
    intro he
    have hl := congrArg List.length he
    simp only [List.length_append, h1, h2] at hl
    omega
  simp only [infoNamed, primaryEvent, if_neg hne]

theorem HasPrefix_iff (s p : GoString) : HasPrefix s p = true ↔ ∃ post, s = p ++ post := by
  induction p generalizing s with
  | nil => simp [HasPrefix]
  | cons b p ih =>
    cases s with
    | nil => simp [HasPrefix]
    | cons a s =>
      simp only [HasPrefix, Bool.and_eq_true, beq_iff_eq, ih, List.cons_append, List.cons.injEq]
      constructor
      · rintro ⟨rfl, post, rfl⟩
        exact ⟨post, rfl, rfl⟩
      · rintro ⟨post, rfl, rfl⟩
        exact ⟨rfl, post, rfl⟩

/-- The function `Contains` is the substring test: byte for byte, at any offset. -/
theorem Contains_iff (s sub : GoString) :
    Contains s sub = true ↔ ∃ pre post, s = pre ++ sub ++ post := by
  induction s with
  | nil =>
    simp only [Contains, HasPrefix_iff]
    constructor
    · rintro ⟨post, hpost⟩
      exact ⟨[], post, by simpa using hpost⟩
    · rintro ⟨pre, post, hs⟩
      have hs2 := hs.symm
      simp only [List.append_eq_nil] at hs2
      exact ⟨[], by simp [hs2.1.2]⟩
  | cons c s ih =>
    simp only [Contains, Bool.or_eq_true, HasPrefix_iff, ih]
    constructor
    · rintro (⟨post, hpost⟩ | ⟨pre, post, hs⟩)
      · exact ⟨[], post, by simpa using hpost⟩
      · exact ⟨c :: pre, post, by simp [hs]⟩
    · rintro ⟨pre, post, hs⟩
      cases pre with
      | nil => exact Or.inl ⟨post, by simpa using hs⟩
      | cons a pre =>
        simp only [List.cons_append, List.cons.injEq] at hs
        exact Or.inr ⟨pre, post, by simp [hs.2]⟩

theorem infoNamed_opening (conn : Conn) (h : Honeypot) (req : Request)
    (host port msg : GoString) (ck : ConnKey) (rest : List Event) (hm : msg.length < 23) :
    infoNamed msg ([.read, .flow ck, primaryEvent conn h req host port] ++ rest)
      = infoNamed msg rest := by
  have h1 := infoNamed_append msg [primaryEvent conn h req host port] rest
  rw [infoNamed_primaryEvent conn h req host port msg hm] at h1
  simpa [infoNamed] using h1

theorem writes_opening (conn : Conn) (h : Honeypot) (req : Request)
    (host port : GoString) (ck : ConnKey) (rest : List Event) :
    writes ([.read, .flow ck, primaryEvent conn h req host port] ++ rest) = writes rest := by
  simp [writes, primaryEvent]

theorem writes_capture (req : Request) : writes (capture req) = [] := by
  unfold capture; split <;> simp [writes, payloadEvent]

theorem writes_closing (conn : Conn) (c : Prop) [Decidable c] :
    writes ((if c then [Event.bodyClose] else []) ++ [Event.close] ++ closeLog conn) = [] := by
  rw [writes_append, writes_closeLog]
  split <;> simp [writes]

theorem infoNamed_closing (msg : GoString) (conn : Conn) (c : Prop) [Decidable c] :
    infoNamed msg ((if c then [Event.bodyClose] else []) ++ [Event.close] ++ closeLog conn)
      = [] := by
  rw [infoNamed_append, infoNamed_closeLog]
  split <;> simp [infoNamed]

theorem writes_selection (req : Request) :
    writes (selection req) =
      [if Contains req.RequestURI (lit "wallet") then walletResponse else okResponse] := by
  unfold selection; split <;> simp [writes, walletEvent]

/-- The writes of an invocation that reaches the response selection: one, of the selected
response. -/
theorem writes_handled (conn : Conn) (h : Honeypot) (req : Request) (host port : GoString)
    (hp : conn.ReadRequest = .ok req) (hs : conn.SplitHostPort = .ok (host, port))
    (ha : req.ContentLength > 0 →
      makeslice conn.maxAlloc conn.heapFits 0 req.ContentLength = .ok)
    (hb : req.ContentLength > 0 → (req.Body.ReadFrom req.ContentLength).2 = none) :
    writes (HandleHTTP conn h).trace =
      [if Contains req.RequestURI (lit "wallet") then walletResponse else okResponse] := by
  rw [trace_handled conn h req host port hp hs ha hb, writes_opening]
  simp only [List.append_assoc]
  rw [writes_append, writes_append, writes_capture, writes_selection]
  have := writes_closing conn (req.ContentLength > 0)
  simp only [List.append_assoc] at this
  rw [this]
  simp

/-- The wallet events of an invocation that reaches the response selection. -/
theorem wallet_handled (conn : Conn) (h : Honeypot) (req : Request) (host port : GoString)
    (hp : conn.ReadRequest = .ok req) (hs : conn.SplitHostPort = .ok (host, port))
    (ha : req.ContentLength > 0 →
      makeslice conn.maxAlloc conn.heapFits 0 req.ContentLength = .ok)
    (hb : req.ContentLength > 0 → (req.Body.ReadFrom req.ContentLength).2 = none) :
    infoNamed (lit "HTTP wallet request") (HandleHTTP conn h).trace =
      if Contains req.RequestURI (lit "wallet") then [[(lit "handler", lit "http")]] else [] := by
  rw [trace_handled conn h req host port hp hs ha hb,
    infoNamed_opening conn h req host port _ _ _ (by decide)]
  simp only [List.append_assoc]
  rw [infoNamed_append, infoNamed_append]
  have h1 := infoNamed_closing (lit "HTTP wallet request") conn (req.ContentLength > 0)
  simp only [List.append_assoc] at h1
  have h2 : infoNamed (lit "HTTP wallet request") (capture req) = [] := by
    have hne : lit "HTTP body payload" ≠ lit "HTTP wallet request" := by decide
    unfold capture; split <;> simp [infoNamed, payloadEvent, hne]
  rw [h1, h2]
  unfold selection
  split <;> simp [infoNamed, walletEvent]

/-- The function `EncodeToString` computes the lowercase hexadecimal text. -/
theorem EncodeToString_eq_lowerHex (b : List Byte) : EncodeToString b = lowerHex b := by
  have hd : ∀ d < 16, hextable.getD d 0 = hexDigit d := by decide
  induction b with
  | nil => rfl
  | cons v b ih =>
    have h1 : v.val / 16 < 16 := by omega
    have h2 : v.val % 16 < 16 := by omega
    simp only [EncodeToString, lowerHex, List.map_cons, List.flatten_cons, List.cons_append,
      List.nil_append, hd _ h1, hd _ h2]
    rw [ih]
    rfl

theorem lowerHex_length (b : List Byte) : (lowerHex b).length = 2 * b.length := by
  induction b with
  | nil => rfl
  | cons v b ih =>
    simp only [lowerHex, List.map_cons, List.flatten_cons, List.length_append,
      List.length_cons, List.length_nil] at ih ⊢
    omega

theorem lowerHex_digits (b : List Byte) : ∀ c ∈ lowerHex b, c ∈ lit "0123456789abcdef" := by
  have hd : ∀ d < 16, hexDigit d ∈ lit "0123456789abcdef" := by decide
  induction b with
  | nil => intro c hc; simp [lowerHex] at hc
  | cons v b ih =>
    intro c hc
    simp only [lowerHex, List.map_cons, List.flatten_cons, List.mem_append, List.mem_cons,
      List.mem_singleton, List.not_mem_nil, or_false] at hc
    rcases hc with (rfl | rfl) | hc
    · exact hd _ (by omega)
    · exact hd _ (by omega)
    · exact ih c hc

/-- The body read of a stream that holds the declared number of bytes gives those bytes. -/
theorem ReadFrom_exact (body : Body) (n : Int) (b extra : List Byte)
    (hb : body.pending = b ++ extra) (hn : (b.length : Int) = n) :
    body.ReadFrom n = (b, none) := by
  have hnat : n.toNat = b.length := by omega
  unfold Body.ReadFrom
  rw [hb, hnat]
  simp

/-- The body read of a stream that ends before the declared number of bytes fails. -/
theorem ReadFrom_short (body : Body) (n : Int) (hlt : (body.pending.length : Int) < n) :
    body.ReadFrom n = (body.pending, some (body.failure.getD ErrUnexpectedEOF)) := by
  have hnat : ¬ n.toNat ≤ body.pending.length := by omega
  unfold Body.ReadFrom
  rw [if_neg hnat]

/-- No payload event is emitted for a request without positive declared length. -/
theorem payload_none (conn : Conn) (h : Honeypot) (req : Request)
    (hp : conn.ReadRequest = .ok req) (hc : req.ContentLength ≤ 0) :
    infoNamed (lit "HTTP body payload") (HandleHTTP conn h).trace = [] := by
  have hn : ¬ req.ContentLength > 0 := by omega
  cases hs : conn.SplitHostPort with
  | error e =>
    have hbody := body_split_error conn h req e hp hs
    rw [HandleHTTP_eq conn h (by rw [hbody]; simp), hbody]
    simp only [Bool.false_eq_true, if_false, List.append_nil]
    rw [infoNamed_append, infoNamed_closeLog]
    simp [infoNamed, logError]
  | ok hostport =>
    obtain ⟨host, port⟩ := hostport
    rw [trace_handled conn h req host port hp hs (fun hpos => absurd hpos hn)
        (fun hpos => absurd hpos hn),
      infoNamed_opening conn h req host port _ _ _ (by decide)]
    simp only [capture, hn, if_false, List.nil_append, List.append_assoc]
    rw [infoNamed_append, infoNamed_append, infoNamed_closeLog]
    unfold selection
    have hne : lit "HTTP wallet request" ≠ lit "HTTP body payload" := by decide
    split <;> simp [infoNamed, walletEvent, hne]

/-- The payload events of an invocation whose body read succeeds. -/
theorem payload_handled (conn : Conn) (h : Honeypot) (req : Request) (host port : GoString)
    (body : List Byte)
    (hp : conn.ReadRequest = .ok req) (hs : conn.SplitHostPort = .ok (host, port))
    (hc : req.ContentLength > 0)
    (ha : makeslice conn.maxAlloc conn.heapFits 0 req.ContentLength = .ok)
    (hb : req.Body.ReadFrom req.ContentLength = (body, none)) :
    infoNamed (lit "HTTP body payload") (HandleHTTP conn h).trace =
      [[(lit "handler", lit "http"), (lit "payload_hex", EncodeToString body)]] := by
  rw [trace_handled conn h req host port hp hs (fun _ => ha) (fun _ => by rw [hb]),
    infoNamed_opening conn h req host port _ _ _ (by decide)]
  simp only [capture, hc, if_true, hb, List.append_assoc]
  rw [infoNamed_append, infoNamed_append, infoNamed_append, infoNamed_append,
    infoNamed_closeLog]
  have hne : lit "HTTP wallet request" ≠ lit "HTTP body payload" := by decide
  unfold selection
  split <;> simp [infoNamed, walletEvent, payloadEvent, hne]

/-- In every invocation that the process survives the connection is closed exactly once, and
only the log of a close error can follow the close. -/
theorem close_once_unless_aborted (conn : Conn) (h : Honeypot)
    (hne : (HandleHTTP conn h).ending ≠ .aborts) :
    List.count Event.close (HandleHTTP conn h).trace = 1 ∧
      ∃ pre post, (HandleHTTP conn h).trace = pre ++ Event.close :: post ∧
        Event.close ∉ pre ∧ ∀ e ∈ post, e.onConn = false := by
  have hb := close_not_in_body conn h
  have hpre : Event.close ∉ (HandleHTTP.body conn h).trace
      ++ (if (HandleHTTP.body conn h).bodyDeferred then [Event.bodyClose] else []) := by
    split <;> simp [hb]
  have hpost : ∀ e ∈ closeLog conn, e.onConn = false := by
    intro e he
    unfold closeLog at he
    split at he <;> simp [logError] at he
    subst he
    rfl
  refine ⟨count_close conn h hne, _, closeLog conn, ?_, hpre, hpost⟩
  rw [ending_eq] at hne
  rw [HandleHTTP_eq conn h hne]
  simp

/-! ## The claims -/

/-- C1, the code at failing inputs: a request that declares Content-Length 2^48 (or 1 TiB) and
carries two bytes parses, the address splits, the request-handled event is logged, and the
allocation of the buffer of line 80, whose capacity is the declared length, ends the process:
no deferred call runs and the trace holds no close.  A declared length of 2^63 - 1 makes the
same allocation panic instead; there the deferred closure still closes the connection once. -/
theorem C1_no_close_when_allocation_ends_process :
    (HandleHTTP (tcpConn (.ok (sampleRequest "POST" "/upload" 281474976710656 [1, 2])) none none)
        sampleHoneypot).ending = .aborts ∧
      List.count Event.close
        (HandleHTTP (tcpConn (.ok (sampleRequest "POST" "/upload" 281474976710656 [1, 2]))
          none none) sampleHoneypot).trace = 0 ∧
      (HandleHTTP (tcpConn (.ok (sampleRequest "POST" "/upload" 281474976710656 [1, 2])) none none)
          sampleHoneypot).trace =
        [.read, .flow (0, 0),
          .log .info (lit "HTTP POST request handled: /upload")
            [(lit "handler", lit "http"), (lit "dest_port", lit "8080"),
             (lit "src_ip", lit "10.0.0.1"), (lit "src_port", lit "4242"),
             (lit "path", lit "/upload"), (lit "method", lit "POST"), (lit "query", lit "")]] ∧
      (HandleHTTP (tcpConn (.ok (sampleRequest "POST" "/upload" 1099511627776 [1, 2])) none none)
        sampleHoneypot).ending = .aborts ∧
      List.count Event.close
        (HandleHTTP (tcpConn (.ok (sampleRequest "POST" "/upload" 1099511627776 [1, 2]))
          none none) sampleHoneypot).trace = 0 ∧
      (HandleHTTP (tcpConn (.ok (sampleRequest "POST" "/upload" 9223372036854775807 [1, 2]))
        none none) sampleHoneypot).ending = .panics ∧
      List.count Event.close
        (HandleHTTP (tcpConn (.ok (sampleRequest "POST" "/upload" 9223372036854775807 [1, 2]))
          none none) sampleHoneypot).trace = 1 := by
  decide

/-- C10: in every invocation of HandleHTTP in which the deferred closure runs, that is, every
one but an invocation that the runtime ends at the allocation of line 80, the named result
`err`, the value the caller receives when the function returns, is the result of
`conn.Close()`, whatever the body's return statement had stored: it is nil exactly when the
close returns nil.  The function returns whenever the allocation of line 80 is not reached or
gives the buffer. -/
theorem C10_result_is_close_result (conn : Conn) (h : Honeypot) :
    ((HandleHTTP conn h).ending ≠ .aborts →
      (HandleHTTP conn h).err = conn.Close ∧
        ((HandleHTTP conn h).err = none ↔ conn.Close = none)) ∧
    ((∀ req host port, conn.ReadRequest = .ok req → conn.SplitHostPort = .ok (host, port) →
        req.ContentLength > 0 →
        makeslice conn.maxAlloc conn.heapFits 0 req.ContentLength = .ok) →
      (HandleHTTP conn h).ending = .returns) := by
  refine ⟨?_, returns_of_alloc conn h⟩
  intro hne
  rw [ending_eq] at hne
  rw [HandleHTTP_eq conn h hne]
  exact ⟨rfl, Iff.rfl⟩

/-- C10 at the stream `NOT A REQUEST` on a connection whose close fails: the caller receives
the close error. -/
theorem C10_result_is_close_result_witness :
    (HandleHTTP (tcpConn (.error errMalformed) none (some errClosed)) sampleHoneypot).ending
        = .returns ∧
      (HandleHTTP (tcpConn (.error errMalformed) none (some errClosed)) sampleHoneypot).err
        = some errClosed :=
  ⟨by decide,
    ((C10_result_is_close_result (tcpConn (.error errMalformed) none (some errClosed))
      sampleHoneypot).1 (by decide)).1⟩

/-- C8: when the byte stream does not parse as an HTTP request, HandleHTTP logs one event at
error level whose message carries the text of the parse error and no field, emits no event at
info level, makes no write, does not look up the flow table, and closes the connection: the
trace is the read, that error event, the close, and the log of a close error if there is one. -/
theorem C8_parse_failure (conn : Conn) (h : Honeypot) (e : GoError)
    (hp : conn.ReadRequest = .error e) :
    (HandleHTTP conn h).trace =
        [.read, .log .error (lit "[http    ] error: " ++ e.Error) [], .close] ++ closeLog conn ∧
      logged .info (HandleHTTP conn h).trace = [] ∧
      writes (HandleHTTP conn h).trace = [] ∧
      (∀ ck, Event.flow ck ∉ (HandleHTTP conn h).trace) ∧
      List.count Event.close (HandleHTTP conn h).trace = 1 := by
  have ht : (HandleHTTP conn h).trace =
      [.read, .log .error (lit "[http    ] error: " ++ e.Error) [], .close] ++ closeLog conn := by
    have hbody := body_parse_error conn h e hp
    rw [HandleHTTP_eq conn h (by rw [hbody]; simp), hbody]
    simp [logError]
  refine ⟨ht, ?_, ?_, ?_, ?_⟩
  · rw [ht, logged_append, logged_info_closeLog]
    simp [logged]
  · rw [ht, writes_append, writes_closeLog]
    simp [writes]
  · intro ck
    rw [ht]
    unfold closeLog
    split <;> simp [logError]
  · rw [ht]
    unfold closeLog
    split <;> simp [logError]

/-- C8 at the stream `NOT A REQUEST`, on a connection whose close succeeds. -/
theorem C8_parse_failure_witness :
    (tcpConn (.error errMalformed) none none).ReadRequest = .error errMalformed ∧
      (HandleHTTP (tcpConn (.error errMalformed) none none) sampleHoneypot).trace =
        [.read, .log .error (lit "[http    ] error: malformed HTTP version \"REQUEST\"") [],
          .close] :=
  ⟨rfl, (C8_parse_failure (tcpConn (.error errMalformed) none none) sampleHoneypot
    errMalformed rfl).1.trans (by decide)⟩

/-- C2, the code at failing inputs: the parse of `NOT A REQUEST` fails and the body returns the
parse error, yet the caller receives nil when the close succeeds, and receives the close
error, which neither is nor wraps the parse error, when the close fails.  The same holds for
a failed write of the generic response. -/
theorem C2_close_result_replaces_primary_error :
    (HandleHTTP (tcpConn (.error errMalformed) none none) sampleHoneypot).returned
        = some errMalformed ∧
      (HandleHTTP (tcpConn (.error errMalformed) none none) sampleHoneypot).err = none ∧
      (HandleHTTP (tcpConn (.error errMalformed) none (some errClosed)) sampleHoneypot).err
        = some errClosed ∧
      errClosed.Is errMalformed = false ∧
      (HandleHTTP (tcpConn (.ok (sampleRequest "GET" "/" 0 [])) (some errBrokenPipe) none)
          sampleHoneypot).returned
        = some (Errorf (lit "failed to send HTTP response: ") errBrokenPipe) ∧
      (HandleHTTP (tcpConn (.ok (sampleRequest "GET" "/" 0 [])) (some errBrokenPipe) none)
          sampleHoneypot).err = none := by
  decide

/-- C9: when the request parses and the remote address splits into host and port, the
request-handled event is emitted exactly once, no info event and no write comes before it, its
message is "HTTP <method> request handled: <escaped path>", and its fields are, in this order
and with no other field, handler = "http", dest_port = the decimal target port of the flow
record looked up for (host, port), src_ip = host, src_port = port, path = the escaped path,
method = the request method, query = the encoded query string. -/
theorem C9_primary_event (conn : Conn) (h : Honeypot) (req : Request) (host port : GoString)
    (hp : conn.ReadRequest = .ok req) (hs : conn.SplitHostPort = .ok (host, port)) :
    primaryEvent conn h req host port =
        .log .info (lit "HTTP " ++ req.Method ++ lit " request handled: " ++ req.URL.EscapedPath)
          [(lit "handler", lit "http"),
           (lit "dest_port",
             Itoa (Int.ofNat
               (h.ConnectionByFlow (conn.NewConnKeyByString host port)).TargetPort)),
           (lit "src_ip", host),
           (lit "src_port", port),
           (lit "path", req.URL.EscapedPath),
           (lit "method", req.Method),
           (lit "query", req.URL.QueryEncode)] ∧
      List.count (primaryEvent conn h req host port) (HandleHTTP conn h).trace = 1 ∧
      ∃ pre post, (HandleHTTP conn h).trace = pre ++ primaryEvent conn h req host port :: post ∧
        logged .info pre = [] ∧ writes pre = [] := by
  have key : ∃ post, (HandleHTTP conn h).trace =
      [.read, .flow (conn.NewConnKeyByString host port), primaryEvent conn h req host port]
        ++ post ∧ primaryEvent conn h req host port ∉ post := by
    rcases invocation_cases conn with ⟨e, hp2⟩ | ⟨r, e, hp2, hs2⟩ | ⟨r, ho, po, hp2, hs2, hk⟩
    · rw [hp] at hp2
      cases hp2
    · rw [hs] at hs2
      cases hs2
    · rw [hp] at hp2
      rw [hs] at hs2
      cases hp2
      cases hs2
      rcases hk with ⟨hc, hm⟩ | ⟨hc, hm⟩ | ⟨hc, hm, e, hr⟩ | ⟨ha, hb⟩
      · exact ⟨_, congrArg Result.trace (trace_alloc_panic conn h req host port hp hs hc hm),
          (primaryEvent_not_later conn h req host port).2.2⟩
      · exact ⟨[], by rw [trace_alloc_fatal conn h req host port hp hs hc hm]; simp, by simp⟩
      · exact ⟨_, trace_read_error conn h req host port e hp hs hc hm hr,
          (primaryEvent_not_later conn h req host port).2.1 e⟩
      · exact ⟨_, trace_handled conn h req host port hp hs ha hb,
          (primaryEvent_not_later conn h req host port).1⟩
  obtain ⟨post, ht, hnot⟩ := key
  refine ⟨rfl, ?_, [.read, .flow (conn.NewConnKeyByString host port)], post, ?_, rfl, rfl⟩
  · rw [ht, List.count_append, List.count_eq_zero_of_not_mem hnot]
    simp [primaryEvent]
  · rw [ht]
    rfl

/-- C9 at `GET /index.html` from 10.0.0.1:4242 with target port 8080. -/
theorem C9_primary_event_witness :
    (tcpConn (.ok (sampleRequest "GET" "/index.html" 0 [])) none none).ReadRequest
        = .ok (sampleRequest "GET" "/index.html" 0 []) ∧
      (tcpConn (.ok (sampleRequest "GET" "/index.html" 0 [])) none none).SplitHostPort
        = .ok (lit "10.0.0.1", lit "4242") ∧
      primaryEvent (tcpConn (.ok (sampleRequest "GET" "/index.html" 0 [])) none none)
          sampleHoneypot (sampleRequest "GET" "/index.html" 0 []) (lit "10.0.0.1") (lit "4242") =
        .log .info (lit "HTTP GET request handled: /index.html")
          [(lit "handler", lit "http"), (lit "dest_port", lit "8080"),
           (lit "src_ip", lit "10.0.0.1"), (lit "src_port", lit "4242"),
           (lit "path", lit "/index.html"), (lit "method", lit "GET"), (lit "query", lit "")] ∧
      List.count
          (primaryEvent (tcpConn (.ok (sampleRequest "GET" "/index.html" 0 [])) none none)
            sampleHoneypot (sampleRequest "GET" "/index.html" 0 []) (lit "10.0.0.1") (lit "4242"))
          (HandleHTTP (tcpConn (.ok (sampleRequest "GET" "/index.html" 0 [])) none none)
            sampleHoneypot).trace = 1 :=
  ⟨rfl, rfl, by decide,
    (C9_primary_event (tcpConn (.ok (sampleRequest "GET" "/index.html" 0 [])) none none)
      sampleHoneypot (sampleRequest "GET" "/index.html" 0 []) (lit "10.0.0.1") (lit "4242")
      rfl rfl).2.1⟩

/-- C3, as stated, fails: the request `POST /wallet` with declared length 5 and an empty stream
behind the head parses and its target contains `wallet`, but the body read fails, and the
handler emits no wallet event and makes no write.  The same holds when the declared length is
2^63 - 1: the allocation of the buffer panics, and neither event nor write follows. -/
theorem C3_counterexample :
    (tcpConn (.ok (sampleRequest "POST" "/wallet" 5 [])) none none).ReadRequest
        = .ok (sampleRequest "POST" "/wallet" 5 []) ∧
      Contains (sampleRequest "POST" "/wallet" 5 []).RequestURI (lit "wallet") = true ∧
      infoNamed (lit "HTTP wallet request")
        (HandleHTTP (tcpConn (.ok (sampleRequest "POST" "/wallet" 5 [])) none none)
          sampleHoneypot).trace = [] ∧
      writes (HandleHTTP (tcpConn (.ok (sampleRequest "POST" "/wallet" 5 [])) none none)
        sampleHoneypot).trace = [] ∧
      (HandleHTTP (tcpConn (.ok (sampleRequest "POST" "/wallet" 9223372036854775807 []))
        none none) sampleHoneypot).ending = .panics ∧
      infoNamed (lit "HTTP wallet request")
        (HandleHTTP (tcpConn (.ok (sampleRequest "POST" "/wallet" 9223372036854775807 []))
          none none) sampleHoneypot).trace = [] ∧
      writes (HandleHTTP (tcpConn (.ok (sampleRequest "POST" "/wallet" 9223372036854775807 []))
        none none) sampleHoneypot).trace = [] :=
  ⟨rfl, by decide, by decide, by decide, by decide, by decide, by decide⟩

/-- C3, amended: for every parsed request, of any method, whose remote address splits and
whose body read (made when the declared length is positive: the buffer of line 80 is
allocated and the read of line 81 returns no error) succeeds, the response is chosen by the
byte-for-byte substring test of `wallet` on the raw request-target.  When the target contains
it, one info event "HTTP wallet request" is emitted and the one write is the wallet-probe
response; when it does not, as for `/Wallet`, no wallet event is emitted and the one write is
exactly "HTTP/1.1 200 OK\r\n\r\n". -/
theorem C3_response_selection (conn : Conn) (h : Honeypot) (req : Request)
    (host port : GoString)
    (hp : conn.ReadRequest = .ok req) (hs : conn.SplitHostPort = .ok (host, port))
    (ha : req.ContentLength > 0 →
      makeslice conn.maxAlloc conn.heapFits 0 req.ContentLength = .ok)
    (hb : req.ContentLength > 0 → (req.Body.ReadFrom req.ContentLength).2 = none) :
    (Contains req.RequestURI (lit "wallet") = true ↔
        ∃ pre post, req.RequestURI = pre ++ lit "wallet" ++ post) ∧
      Contains (lit "/Wallet") (lit "wallet") = false ∧
      (Contains req.RequestURI (lit "wallet") = true →
        infoNamed (lit "HTTP wallet request") (HandleHTTP conn h).trace
            = [[(lit "handler", lit "http")]] ∧
          writes (HandleHTTP conn h).trace
            = [lit "HTTP/1.1 200 OK\r\nContent-Length:20\r\n\r\n[[\"\"]]\r\n\r\n"]) ∧
      (Contains req.RequestURI (lit "wallet") = false →
        infoNamed (lit "HTTP wallet request") (HandleHTTP conn h).trace = [] ∧
          writes (HandleHTTP conn h).trace = [lit "HTTP/1.1 200 OK\r\n\r\n"]) := by
  refine ⟨Contains_iff _ _, by decide, ?_, ?_⟩
  · intro hw
    rw [wallet_handled conn h req host port hp hs ha hb,
      writes_handled conn h req host port hp hs ha hb]
    simp [hw, walletResponse]
  · intro hw
    rw [wallet_handled conn h req host port hp hs ha hb,
      writes_handled conn h req host port hp hs ha hb]
    simp [hw, okResponse]

/-- C3, amended, at `POST /api/wallet/balance` with a two-byte body. -/
theorem C3_response_selection_witness :
    infoNamed (lit "HTTP wallet request")
        (HandleHTTP (tcpConn (.ok (sampleRequest "POST" "/api/wallet/balance" 2 [1, 2])) none none)
          sampleHoneypot).trace = [[(lit "handler", lit "http")]] ∧
      writes (HandleHTTP (tcpConn (.ok (sampleRequest "POST" "/api/wallet/balance" 2 [1, 2]))
          none none) sampleHoneypot).trace
        = [lit "HTTP/1.1 200 OK\r\nContent-Length:20\r\n\r\n[[\"\"]]\r\n\r\n"] :=
  (C3_response_selection
    (tcpConn (.ok (sampleRequest "POST" "/api/wallet/balance" 2 [1, 2])) none none)
    sampleHoneypot (sampleRequest "POST" "/api/wallet/balance" 2 [1, 2])
    (lit "10.0.0.1") (lit "4242") rfl rfl (by decide) (by decide)).2.2.1 (by decide)

/-- C5, as stated, fails: `GET /wallet` without body from an address that splits is answered
with the wallet-probe response, not with "HTTP/1.1 200 OK\r\n\r\n", and two info events are
emitted. -/
theorem C5_counterexample :
    (tcpConn (.ok (sampleRequest "GET" "/wallet" 0 [])) none none).ReadRequest
        = .ok (sampleRequest "GET" "/wallet" 0 []) ∧
      (tcpConn (.ok (sampleRequest "GET" "/wallet" 0 [])) none none).SplitHostPort
        = .ok (lit "10.0.0.1", lit "4242") ∧
      (sampleRequest "GET" "/wallet" 0 []).Method = lit "GET" ∧
      (sampleRequest "GET" "/wallet" 0 []).ContentLength = 0 ∧
      writes (HandleHTTP (tcpConn (.ok (sampleRequest "GET" "/wallet" 0 [])) none none)
          sampleHoneypot).trace
        = [lit "HTTP/1.1 200 OK\r\nContent-Length:20\r\n\r\n[[\"\"]]\r\n\r\n"] ∧
      writes (HandleHTTP (tcpConn (.ok (sampleRequest "GET" "/wallet" 0 [])) none none)
          sampleHoneypot).trace
        ≠ [lit "HTTP/1.1 200 OK\r\n\r\n"] ∧
      (logged .info (HandleHTTP (tcpConn (.ok (sampleRequest "GET" "/wallet" 0 [])) none none)
          sampleHoneypot).trace).length = 2 :=
  ⟨rfl, rfl, rfl, rfl, by decide, by decide, by decide⟩

/-- C5, amended: for every GET request without body whose request-target does not contain
`wallet`, from a remote address that splits into host and port, the one write is exactly
"HTTP/1.1 200 OK\r\n\r\n" and exactly one info event is emitted, the request-handled event,
whose field method is "GET" and whose field path is the escaped path of the URL. -/
theorem C5_plain_get (conn : Conn) (h : Honeypot) (req : Request) (host port : GoString)
    (hp : conn.ReadRequest = .ok req) (hs : conn.SplitHostPort = .ok (host, port))
    (hm : req.Method = lit "GET") (hc : req.ContentLength ≤ 0)
    (hw : Contains req.RequestURI (lit "wallet") = false) :
    writes (HandleHTTP conn h).trace = [lit "HTTP/1.1 200 OK\r\n\r\n"] ∧
      logged .info (HandleHTTP conn h).trace =
        [(lit "HTTP GET request handled: " ++ req.URL.EscapedPath,
          [(lit "handler", lit "http"),
           (lit "dest_port",
             Itoa (Int.ofNat
               (h.ConnectionByFlow (conn.NewConnKeyByString host port)).TargetPort)),
           (lit "src_ip", host),
           (lit "src_port", port),
           (lit "path", req.URL.EscapedPath),
           (lit "method", lit "GET"),
           (lit "query", req.URL.QueryEncode)])] := by
  have hn : ¬ req.ContentLength > 0 := by omega
  have ha : req.ContentLength > 0 →
      makeslice conn.maxAlloc conn.heapFits 0 req.ContentLength = .ok :=
    fun hpos => absurd hpos hn
  have hb : req.ContentLength > 0 → (req.Body.ReadFrom req.ContentLength).2 = none :=
    fun hpos => absurd hpos hn
  constructor
  · rw [writes_handled conn h req host port hp hs ha hb]
    simp [hw, okResponse]
  · have hmsg : lit "HTTP " ++ lit "GET" ++ lit " request handled: "
        = lit "HTTP GET request handled: " := by decide
    rw [trace_handled conn h req host port hp hs ha hb]
    simp only [capture, selection, hn, hw, if_false, List.append_nil, List.nil_append,
      Bool.false_eq_true]
    rw [logged_append, logged_append, logged_info_closeLog]
    simp [logged, primaryEvent, hm, ← hmsg]

/-- C5, amended, at `GET /index.html`. -/
theorem C5_plain_get_witness :
    writes (HandleHTTP (tcpConn (.ok (sampleRequest "GET" "/index.html" 0 [])) none none)
        sampleHoneypot).trace = [lit "HTTP/1.1 200 OK\r\n\r\n"] :=
  (C5_plain_get (tcpConn (.ok (sampleRequest "GET" "/index.html" 0 [])) none none)
    sampleHoneypot (sampleRequest "GET" "/index.html" 0 []) (lit "10.0.0.1") (lit "4242")
    rfl rfl rfl (by decide) (by decide)).1

/-- What an invocation in which the allocation of line 80 panics does not do: it emits no
payload event and makes no write. -/
theorem alloc_panic_effects (conn : Conn) (h : Honeypot) (req : Request) (host port : GoString)
    (hp : conn.ReadRequest = .ok req) (hs : conn.SplitHostPort = .ok (host, port))
    (hc : req.ContentLength > 0)
    (hm : makeslice conn.maxAlloc conn.heapFits 0 req.ContentLength = .panic) :
    (HandleHTTP conn h).ending = .panics ∧
      infoNamed (lit "HTTP body payload") (HandleHTTP conn h).trace = [] ∧
      writes (HandleHTTP conn h).trace = [] := by
  rw [trace_alloc_panic conn h req host port hp hs hc hm]
  refine ⟨rfl, ?_, ?_⟩
  · show infoNamed _ (_ ++ _) = []
    rw [infoNamed_opening conn h req host port _ _ _ (by decide), infoNamed_append,
      infoNamed_closeLog]
    simp [infoNamed]
  · show writes (_ ++ _) = []
    rw [writes_opening, writes_append, writes_closeLog]
    simp [writes]

/-- C6, as stated, fails: a request that declares length 2 and carries the two bytes de ad,
received over an in-memory connection whose remote address does not split, gets no
"HTTP body payload" event: the handler returns before the body is read.  Nor does a request
from an address that splits whose declared length, 2^48 + 1, is above what the runtime
allocates, though the stream carries that many bytes: the allocation of the buffer panics. -/
theorem C6_counterexample :
    (pipeConn (.ok (sampleRequest "POST" "/upload" 2 [0xde, 0xad]))).ReadRequest
        = .ok (sampleRequest "POST" "/upload" 2 [0xde, 0xad]) ∧
      (sampleRequest "POST" "/upload" 2 [0xde, 0xad]).ContentLength = 2 ∧
      (sampleRequest "POST" "/upload" 2 [0xde, 0xad]).Body.pending.length = 2 ∧
      infoNamed (lit "HTTP body payload")
        (HandleHTTP (pipeConn (.ok (sampleRequest "POST" "/upload" 2 [0xde, 0xad])))
          sampleHoneypot).trace = [] ∧
      (sampleRequest "POST" "/upload" 281474976710657
        (List.replicate 281474976710657 0)).Body.pending.length = 281474976710657 ∧
      (HandleHTTP (tcpConn (.ok (sampleRequest "POST" "/upload" 281474976710657
        (List.replicate 281474976710657 0))) none none) sampleHoneypot).ending = .panics ∧
      infoNamed (lit "HTTP body payload")
        (HandleHTTP (tcpConn (.ok (sampleRequest "POST" "/upload" 281474976710657
          (List.replicate 281474976710657 0))) none none) sampleHoneypot).trace = [] :=
  have big := alloc_panic_effects
    (tcpConn (.ok (sampleRequest "POST" "/upload" 281474976710657
      (List.replicate 281474976710657 0))) none none) sampleHoneypot
    (sampleRequest "POST" "/upload" 281474976710657 (List.replicate 281474976710657 0))
    (lit "10.0.0.1") (lit "4242") rfl rfl (by decide) (by decide)
  ⟨rfl, rfl, rfl, by decide, List.length_replicate _ _, big.1, big.2.1⟩

/-- C6, amended: for every parsed request that declares a length N > 0 and carries a body of
exactly N bytes b, when the remote address splits into host and port and the buffer of
capacity N of line 80 is allocated, exactly one info event "HTTP body payload" is emitted and
its field payload_hex is what `hex.EncodeToString` gives for b, which is the lowercase
hexadecimal text of b: 2N characters, all among 0-9a-f, two per byte in byte order.  For every
parsed request whose declared length is not positive no such event is emitted. -/
theorem C6_body_payload (conn : Conn) (h : Honeypot) (req : Request)
    (hp : conn.ReadRequest = .ok req) :
    (∀ host port b extra, conn.SplitHostPort = .ok (host, port) →
        0 < req.ContentLength → req.Body.pending = b ++ extra →
        (b.length : Int) = req.ContentLength →
        makeslice conn.maxAlloc conn.heapFits 0 req.ContentLength = .ok →
        infoNamed (lit "HTTP body payload") (HandleHTTP conn h).trace
            = [[(lit "handler", lit "http"), (lit "payload_hex", EncodeToString b)]] ∧
          EncodeToString b = lowerHex b ∧
          (EncodeToString b).length = 2 * b.length ∧
          ∀ c ∈ EncodeToString b, c ∈ lit "0123456789abcdef") ∧
      (req.ContentLength ≤ 0 →
        infoNamed (lit "HTTP body payload") (HandleHTTP conn h).trace = []) := by
  refine ⟨?_, payload_none conn h req hp⟩
  intro host port b extra hs hc hb hn ha
  refine ⟨payload_handled conn h req host port b hp hs hc ha
    (ReadFrom_exact req.Body req.ContentLength b extra hb hn),
    EncodeToString_eq_lowerHex b, ?_, ?_⟩
  · rw [EncodeToString_eq_lowerHex, lowerHex_length]
  · rw [EncodeToString_eq_lowerHex]
    exact lowerHex_digits b

/-- C6, amended, at a request with the three-byte body 00 ff 4a. -/
theorem C6_body_payload_witness :
    infoNamed (lit "HTTP body payload")
        (HandleHTTP (tcpConn (.ok (sampleRequest "POST" "/upload" 3 [0x00, 0xff, 0x4a])) none none)
          sampleHoneypot).trace
      = [[(lit "handler", lit "http"), (lit "payload_hex", lit "00ff4a")]] :=
  ((C6_body_payload (tcpConn (.ok (sampleRequest "POST" "/upload" 3 [0x00, 0xff, 0x4a])) none none)
    sampleHoneypot (sampleRequest "POST" "/upload" 3 [0x00, 0xff, 0x4a]) rfl).1
      (lit "10.0.0.1") (lit "4242") [0x00, 0xff, 0x4a] [] rfl (by decide) rfl rfl
      (by decide)).1.trans
    (by decide)

/-- C7, as stated, fails: a request that declares length 5 with two bytes on the stream,
received over an in-memory connection whose remote address does not split, ends with the
address error, before the body is read: the only read is that of the request head, and the
error logged and returned by the body is the address error.  And a request from an address
that splits that declares length 2^63 - 1 with two bytes on the stream ends in a panic at the
allocation of the buffer: the body is not read, no event is logged at error level, and no
error is returned. -/
theorem C7_counterexample :
    (pipeConn (.ok (sampleRequest "POST" "/upload" 5 [1, 2]))).ReadRequest
        = .ok (sampleRequest "POST" "/upload" 5 [1, 2]) ∧
      ((sampleRequest "POST" "/upload" 5 [1, 2]).Body.pending.length : Int)
        < (sampleRequest "POST" "/upload" 5 [1, 2]).ContentLength ∧
      (HandleHTTP (pipeConn (.ok (sampleRequest "POST" "/upload" 5 [1, 2])))
          sampleHoneypot).trace
        = [.read, .log .error (lit "[http    ] error: address pipe: missing port in address") [],
            .close] ∧
      (HandleHTTP (pipeConn (.ok (sampleRequest "POST" "/upload" 5 [1, 2])))
          sampleHoneypot).returned
        = some (.leaf (lit "address pipe: missing port in address")) ∧
      ((sampleRequest "POST" "/upload" 9223372036854775807 [1, 2]).Body.pending.length : Int)
        < (sampleRequest "POST" "/upload" 9223372036854775807 [1, 2]).ContentLength ∧
      HandleHTTP (tcpConn (.ok (sampleRequest "POST" "/upload" 9223372036854775807 [1, 2]))
          none none) sampleHoneypot =
        ⟨[.read, .flow (0, 0),
          .log .info (lit "HTTP POST request handled: /upload")
            [(lit "handler", lit "http"), (lit "dest_port", lit "8080"),
             (lit "src_ip", lit "10.0.0.1"), (lit "src_port", lit "4242"),
             (lit "path", lit "/upload"), (lit "method", lit "POST"), (lit "query", lit "")],
          .bodyClose, .close], none, none, .panics⟩ ∧
      logged .error
        (HandleHTTP (tcpConn (.ok (sampleRequest "POST" "/upload" 9223372036854775807 [1, 2]))
          none none) sampleHoneypot).trace = [] :=
  ⟨rfl, by decide, by decide, by decide, by decide, by decide, by decide⟩

/-- C7, amended: for every parsed request whose declared length exceeds the number of bytes
the stream delivers behind the head, when the remote address splits into host and port and
the buffer of line 80 is allocated, the body read fails (with `io.ErrUnexpectedEOF` at the end
of the stream, or with the read error of the stream), the body of the handler returns that
error after logging it at error level, no "HTTP body payload" event is emitted, no write is
made, and the connection is closed, once, after the body reader. -/
theorem C7_short_body (conn : Conn) (h : Honeypot) (req : Request) (host port : GoString)
    (hp : conn.ReadRequest = .ok req) (hs : conn.SplitHostPort = .ok (host, port))
    (hlt : (req.Body.pending.length : Int) < req.ContentLength)
    (ha : makeslice conn.maxAlloc conn.heapFits 0 req.ContentLength = .ok) :
    (req.Body.ReadFrom req.ContentLength).2 = some (req.Body.failure.getD ErrUnexpectedEOF) ∧
      (HandleHTTP conn h).returned = some (req.Body.failure.getD ErrUnexpectedEOF) ∧
      (HandleHTTP conn h).trace =
        [.read, .flow (conn.NewConnKeyByString host port), primaryEvent conn h req host port,
          .read,
          .log .error
            (lit "[http    ] error: " ++ (req.Body.failure.getD ErrUnexpectedEOF).Error) [],
          .bodyClose, .close] ++ closeLog conn ∧
      infoNamed (lit "HTTP body payload") (HandleHTTP conn h).trace = [] ∧
      writes (HandleHTTP conn h).trace = [] ∧
      List.count Event.close (HandleHTTP conn h).trace = 1 ∧
      (HandleHTTP conn h).ending = .returns := by
  have hc : req.ContentLength > 0 := by omega
  have hr : (req.Body.ReadFrom req.ContentLength).2
      = some (req.Body.failure.getD ErrUnexpectedEOF) := by
    rw [ReadFrom_short req.Body req.ContentLength hlt]
  have ht := trace_read_error conn h req host port _ hp hs hc ha hr
  have hbody := body_read_error conn h req host port _ hp hs hc ha hr
  have hend : (HandleHTTP conn h).ending = .returns := by rw [ending_eq, hbody]
  refine ⟨hr, ?_, ?_, ?_, ?_, count_close conn h (by rw [hend]; decide), hend⟩
  · rw [HandleHTTP_eq conn h (by rw [hbody]; simp), hbody]
  · rw [ht]
    simp [logError]
  · rw [ht, infoNamed_opening conn h req host port _ _ _ (by decide), infoNamed_append,
      infoNamed_closeLog]
    simp [infoNamed, logError]
  · rw [ht, writes_opening, writes_append, writes_closeLog]
    simp [writes, logError]

/-- C7, amended, at a request that declares length 5 with two bytes on the stream. -/
theorem C7_short_body_witness :
    (HandleHTTP (tcpConn (.ok (sampleRequest "POST" "/upload" 5 [1, 2])) none none)
        sampleHoneypot).returned = some ErrUnexpectedEOF ∧
      writes (HandleHTTP (tcpConn (.ok (sampleRequest "POST" "/upload" 5 [1, 2])) none none)
        sampleHoneypot).trace = [] :=
  have w := C7_short_body (tcpConn (.ok (sampleRequest "POST" "/upload" 5 [1, 2])) none none)
    sampleHoneypot (sampleRequest "POST" "/upload" 5 [1, 2]) (lit "10.0.0.1") (lit "4242")
    rfl rfl (by decide) (by decide)
  ⟨w.2.1, w.2.2.2.2.1⟩

/-- C4, the code at a failing input: for `GET /wallet` the handler writes the wallet-probe
response, which starts with the status line and declares Content-Length 20, while the body
that follows the first blank line is the 10 bytes `[[""]]` CRLF CRLF. -/
theorem C4_wallet_body_is_ten_bytes :
    writes (HandleHTTP (tcpConn (.ok (sampleRequest "GET" "/wallet" 0 [])) none none)
        sampleHoneypot).trace = [walletResponse] ∧
      HasPrefix walletResponse (lit "HTTP/1.1 200 OK\r\n") = true ∧
      declaredLength walletResponse = some 20 ∧
      messageBody walletResponse = some (lit "[[\"\"]]\r\n\r\n") ∧
      (messageBody walletResponse).map List.length = some 10 := by
  decide

end Glutton
